import Mathlib

/-!
Shallow embedding of `rllib/offline/offline_data.py` (classes `OfflineData`
and `OfflinePreLearner`).

Conventions of the embedding:
* Python cell values are modelled by the closed type `Val`; compressed
  observations are modelled by the `Val.packed` constructor and
  `unpack_if_needed` (the real `unpack_if_needed` lives outside `src/`;
  its behaviour — "decompress if stored compressed, else identity" — is
  taken from the spec).
* A columnar batch (`Dict[str, np.ndarray]`) is an association list from
  column name to the value sequence of that column; Python `KeyError`/`IndexError`
  on lookups are made explicit through `Except Err`.
* Column-name constants come from `ray.rllib.core.columns.Columns`
  (repository code outside `src/`): eps_id, agent_id, module_id, obs,
  actions, rewards, infos, new_obs, terminateds, truncateds, t.
* Fallible Python code (raised exceptions) is modelled with `Except Err`;
  an uncaught exception aborts the surrounding computation, which the
  `Except` bind reproduces.
-/

namespace RayOffline

/-- A Python value stored in a batch cell.  `packed v` models a compressed
observation; `dict0` models the empty dict `{}` used as a default info. -/
inductive Val where
  | str : String → Val
  | num : Int → Val
  | bool : Bool → Val
  | dict0 : Val
  | packed : Val → Val
deriving DecidableEq, Repr

/-- Embeds `ray.rllib.utils.compression.unpack_if_needed` (outside `src/`):
decompress a compressed value, pass any other value through unchanged. -/
def unpack_if_needed : Val → Val
  | Val.packed v => v
  | v => v

/-- A raw columnar batch: `Dict[str, np.ndarray]` as an association list
(column name ↦ ordered value sequence).  Python dicts have unique keys;
lookup takes the first binding. -/
abbrev Batch := List (String × List Val)

/-- Python exceptions raised by the embedded code, plus the explicit
"dataset unavailable" condition the spec demands (never produced by the
source). -/
inductive Err where
  | keyError : String → Err
  | indexError : String → Err
  | attributeError : String → Err
  | typeError : String → Err
  | unboundLocalError : String → Err
  | datasetUnavailable : Err
deriving DecidableEq, Repr

/-- Dict lookup `batch[k]`: the column for key `k`, if present. -/
def getCol (b : Batch) (k : String) : Option (List Val) :=
  (b.find? (fun p => p.1 == k)).map (fun p => p.2)

/-- Python `k in batch`. -/
def hasCol (b : Batch) (k : String) : Bool :=
  (getCol b k).isSome

/-- Lookup `batch[k][i]`: `KeyError` if the column is absent, `IndexError` if the
row index is out of range. -/
def getCell (b : Batch) (k : String) (i : Nat) : Except Err Val :=
  match getCol b k with
  | none => Except.error (Err.keyError k)
  | some col =>
    match col.get? i with
    | none => Except.error (Err.indexError k)
    | some v => Except.ok v

/-- The module-level `SCHEMA` list: the reserved column names (values of the
`Columns` constants plus the three legacy aliases). -/
def SCHEMA : List String :=
  ["eps_id", "agent_id", "module_id", "obs", "actions", "rewards", "infos",
   "new_obs", "terminateds", "truncateds", "t",
   "agent_index", "dones", "unroll_id"]

/-- Structure `SingleAgentEpisode` as constructed by `_map_to_episodes`
(the class itself lives outside `src/`; per the spec it stores the
constructor arguments as the attribute sequences of the episode). -/
structure SingleAgentEpisode where
  id_ : Val
  agent_id : Option Val
  observations : List Val
  infos : List Val
  actions : List Val
  rewards : List Val
  terminated : Val
  truncated : Val
  extra_model_outputs : List (String × List Val)
  len_lookback_buffer : Nat
deriving DecidableEq, Repr

/-- Method `SingleAgentEpisode.env_steps()` (outside `src/`): the number of
transitions the episode represents; with lookback 0 this is the number of
observations minus one (the spec: "number of transitions represented",
always 1 for the episodes built here). -/
def SingleAgentEpisode.env_steps (e : SingleAgentEpisode) : Nat :=
  e.observations.length - 1

/-- The agent-id extraction done at the top of the loop in the multi-agent
case: `batch[Columns.AGENT_ID][i]` if present, else
`batch["agent_index"][i]` if present, else `None`. -/
def agentIdLookup (b : Batch) (i : Nat) : Except Err (Option Val) :=
  if hasCol b "agent_id" then (getCell b "agent_id" i).map some
  else if hasCol b "agent_index" then (getCell b "agent_index" i).map some
  else Except.ok none

/-- The dict comprehension
`{k: [v[i]] for k, v in batch.items() if k not in SCHEMA}`:
the row-`i` value of every non-reserved column wrapped as a length-1 list. -/
def extraOutputs (b : Batch) (i : Nat) : Except Err (List (String × List Val)) :=
  (b.filter (fun p => !(SCHEMA.contains p.1))).mapM
    (fun p =>
      match p.2.get? i with
      | some v => Except.ok (p.1, [v])
      | none => Except.error (Err.indexError p.1))

/-- Lookup `batch[Columns.INFOS][i] if Columns.INFOS in batch else` empty dict. -/
def lookupInfo (b : Batch) (i : Nat) : Except Err Val :=
  if hasCol b "infos" then getCell b "infos" i else Except.ok Val.dict0

/-- Lookup `batch[Columns.TERMINATEDS if Columns.TERMINATEDS in batch else
"dones"][i]`: the terminated flag, falling back to the legacy done-flag
column — whose absence raises `KeyError` rather than defaulting. -/
def lookupTerminated (b : Batch) (i : Nat) : Except Err Val :=
  if hasCol b "terminateds" then getCell b "terminateds" i
  else getCell b "dones" i

/-- Lookup `batch[Columns.TRUNCATEDS][i] if Columns.TRUNCATEDS in batch else
False`: an absent truncated-flag column defaults to `False`. -/
def lookupTruncated (b : Batch) (i : Nat) : Except Err Val :=
  if hasCol b "truncateds" then getCell b "truncateds" i
  else Except.ok (Val.bool false)

/-- The `SingleAgentEpisode(...)` construction for row `i` on the
single-agent path, with lookups performed in the constructor-argument
order of the source.  `agent_id` is always `None` on this path. -/
def buildRow (b : Batch) (i : Nat) (obs : Val) : Except Err SingleAgentEpisode := do
  let id_ ← getCell b "eps_id" i
  let nobs ← getCell b "new_obs" i
  let info ← lookupInfo b i
  let act ← getCell b "actions" i
  let rew ← getCell b "rewards" i
  let term ← lookupTerminated b i
  let trunc ← lookupTruncated b i
  let extras ← extraOutputs b i
  Except.ok
    { id_ := id_
      agent_id := none
      observations := [unpack_if_needed obs, unpack_if_needed nobs]
      infos := [Val.dict0, info]
      actions := [act]
      rewards := [rew]
      terminated := term
      truncated := trunc
      extra_model_outputs := extras
      len_lookback_buffer := 0 }

/-- The `for i, obs in enumerate(batch["obs"])` loop body, recursing over
the remaining observation column with the running row index.  On the
multi-agent path the source computes the agent id, then executes `pass`
and `episodes.append(episode)` with `episode` unbound, which raises
`UnboundLocalError` on the first row. -/
def mapRows (is_multi_agent : Bool) (b : Batch) :
    List Val → Nat → Except Err (List SingleAgentEpisode)
  | [], _ => Except.ok []
  | obs :: rest, i =>
    if is_multi_agent then do
      let _ ← agentIdLookup b i
      Except.error (Err.unboundLocalError "episode")
    else do
      let e ← buildRow b i obs
      let es ← mapRows is_multi_agent b rest (i + 1)
      Except.ok (e :: es)

/-- Function `OfflinePreLearner._map_to_episodes`.  The source returns
`{"episodes": episodes}`; the singleton dict wrapper is elided and the
episode list returned directly. -/
def map_to_episodes (is_multi_agent : Bool) (b : Batch) :
    Except Err (List SingleAgentEpisode) :=
  match getCol b "obs" with
  | none => Except.error (Err.keyError "obs")
  | some obsCol => mapRows is_multi_agent b obsCol 0

/-- Structure `MultiAgentBatch` (outside `src/`): module-keyed sub-batches plus the
aggregate env-step count.  Sub-batch payloads are opaque (`Nat`). -/
structure MultiAgentBatch where
  policy_batches : List (String × Nat)
  env_steps : Nat
deriving DecidableEq, Repr

/-- Option `config.policies_to_train` as the tagged variant from the spec:
`None`, a fixed collection of module ids, or a callable predicate. -/
inductive Policy where
  | nonePolicy : Policy
  | fixed : List String → Policy
  | pred : (String → MultiAgentBatch → Bool) → Policy

/-- Method `OfflinePreLearner._should_module_be_updated`.  In Python, the check
`if not self._policies_to_train` is falsy for `None` AND for an empty
collection; a callable is always truthy. -/
def should_module_be_updated (pol : Policy) (module_id : String)
    (multi_agent_batch : MultiAgentBatch) : Bool :=
  match pol with
  | Policy.nonePolicy => true
  | Policy.fixed ids => if ids.isEmpty then true else ids.contains module_id
  | Policy.pred f => f module_id multi_agent_batch

/-- The filtering loop in `OfflinePreLearner.__call__`:
`for module_id in list(batch.policy_batches.keys()): if not
self._should_module_be_updated(module_id, batch): del ...`.
The key list is snapshotted up front, but each membership decision sees
the batch with the deletions made so far. -/
def filterModules (pol : Policy) (b : MultiAgentBatch) : MultiAgentBatch :=
  (b.policy_batches.map (fun p => p.1)).foldl
    (fun acc mid =>
      if should_module_be_updated pol mid acc then acc
      else { acc with
               policy_batches := acc.policy_batches.filter (fun p => !(p.1 == mid)) })
    b

/-- The filtering rule as the claim words it: a module is kept iff the
inclusion decision taken against the FULL (unfiltered) batch is true.
Used only to compare against `filterModules`. -/
def filterModulesClaim (pol : Policy) (b : MultiAgentBatch) : MultiAgentBatch :=
  { b with
      policy_batches :=
        b.policy_batches.filter (fun p => should_module_be_updated pol p.1 b) }

/-- The per-call return value `{"batch": [batch]}` of
`OfflinePreLearner.__call__`. -/
structure CallResult where
  batch : List MultiAgentBatch
deriving DecidableEq, Repr

/-- Method `OfflinePreLearner.__call__`.  The learner connector pipeline is an
external collaborator (spec interface `apply(module, episodes) ->
columnarDataByModule`) and is passed in as the opaque function
`connector`; `SampleBatch` wrapping of per-module data is the identity
on the opaque payload. -/
def preLearnerCall (is_multi_agent : Bool) (pol : Policy)
    (connector : List SingleAgentEpisode → List (String × Nat))
    (b : Batch) : Except Err CallResult := do
  let episodes ← map_to_episodes is_multi_agent b
  let data := connector episodes
  let mab : MultiAgentBatch :=
    { policy_batches := data
      env_steps := (episodes.map SingleAgentEpisode.env_steps).sum }
  Except.ok { batch := [filterModules pol mab] }

/-- Comprehension `[xs2[i] for i in indices]`: apply an index permutation to a list.
Python raises `IndexError` on an out-of-range index; the claims only ever
supply permutations of `[0, len)`, for which `filterMap` agrees with the
source. -/
def permuteIdx (perm : List Nat) (xs : List α) : List α :=
  perm.filterMap (fun i => xs.get? i)

/-- The scan `for i, hint in enumerate(locality_hints): if hint == node_id:
self._learner = learner[i]` over already-permuted parallel lists: the
`_learner` attribute ends up holding the handle of the LAST matching hint
(`none` = the attribute was never assigned). -/
def scanLearner (node_id : String) (pairs : List (String × String)) : Option String :=
  pairs.foldl (fun acc p => if p.1 = node_id then some p.2 else acc) none

/-- The remote-learner affinity selection in `OfflinePreLearner.__init__`:
permute hints and handles identically, scan for a node match, then run
`if not self._learner`.  When no hint matched, `self._learner` was never
assigned, so that check raises `AttributeError` (the `random.randint`
fallback line is unreachable); when a hint matched, the bound
`ActorHandle` is truthy and the fallback is skipped. -/
def selectLearner (node_id : String) (locality_hints : List String)
    (learner : List String) (perm : List Nat) : Except Err String :=
  let hints := permuteIdx perm locality_hints
  let handles := permuteIdx perm learner
  match scanLearner node_id (hints.zip handles) with
  | some l => Except.ok l
  | none => Except.error (Err.attributeError "_learner")

/-! ### The `OfflineData` façade

`ray.data` dataset handles and their `map_batches` / `iter_batches` /
`streaming_split` operations are repository code outside `src/`; they are
modelled from the external-interface section of the spec (§6): `map` with a
transform-unit factory and a concurrency constructs that many transform
units, each from the same constructor kwargs; `splitStreaming(n, ...)`
yields `n` iterators over the mapped dataset. -/

/-- The `learner` constructor kwarg: a single local `Learner` handle or
the full remote handle list. -/
inductive LearnerArg where
  | single : String → LearnerArg
  | many : List String → LearnerArg
deriving DecidableEq, Repr

/-- The `fn_constructor_kwargs` passed to `map_batches` for
`OfflinePreLearner` (the opaque `config` entry is omitted). -/
structure PreLearnerKwargs where
  learner : LearnerArg
  locality_hints : Option (List String)
  module_spec : Option String
  module_state : Option Nat
deriving DecidableEq, Repr

/-- A dataset produced by `map_batches(OfflinePreLearner, ...)`.
Modelled from the spec: the framework instantiates `concurrency`
transform units, each constructed from the same kwargs. -/
structure MappedDS where
  kwargs : PreLearnerKwargs
  concurrency : Nat
  batch_size : Nat
  zero_copy : Bool
  units : List PreLearnerKwargs
deriving DecidableEq, Repr

/-- Call `ds.map_batches(OfflinePreLearner, fn_constructor_kwargs, concurrency,
batch_size, zero_copy_batch)` on the (opaque, `String`-modelled) loaded
dataset. -/
def mapBatches (kw : PreLearnerKwargs) (concurrency batch_size : Nat)
    (zero_copy : Bool) : MappedDS :=
  { kwargs := kw
    concurrency := concurrency
    batch_size := batch_size
    zero_copy := zero_copy
    units := List.replicate concurrency kw }

/-- The iterator built by `iter_batches(batch_size, prefetch_batches,
local_shuffle_buffer_size)`. -/
structure BatchIter where
  srcMapped : MappedDS
  batch_size : Nat
  prefetch : Nat
  shuffle_buffer : Nat
deriving DecidableEq, Repr

/-- One of the `n` iterators returned by `streaming_split`. -/
structure ShardIter where
  srcMapped : MappedDS
  idx : Nat
deriving DecidableEq, Repr

/-- Call `streaming_split(n, equal, locality_hints)`: modelled from the spec as
`n` shard iterators over the mapped dataset. -/
def streamingSplit (m : MappedDS) (n : Nat) : List ShardIter :=
  (List.range n).map (fun i => { srcMapped := m, idx := i })

/-- Attribute state of the `OfflineData` façade after `__init__` (plus the
externally assigned learner/hint/spec fields).  `data = none` models the
attribute never having been set because the dataset load raised and the
exception was swallowed. -/
structure OfflineData where
  data : Option String
  batch_iterator : Option BatchIter
  locality_hints : Option (List String)
  learner_handles : Option (List String)
  module_spec : Option String
deriving DecidableEq, Repr

/-- Constructor `OfflineData.__init__`: on a successful load `self.data` is set; on
failure the exception is logged and swallowed, leaving `self.data` unset.
The remaining fields start as `None`. -/
def OfflineData.init (loadResult : Except String String) : OfflineData :=
  { data := match loadResult with
      | Except.ok ds => some ds
      | Except.error _ => none
    batch_iterator := none
    locality_hints := none
    learner_handles := none
    module_spec := none }

/-- The three possible return values of `sample`. -/
inductive SampleOut where
  | batch : MultiAgentBatch → SampleOut
  | iter : Option BatchIter → SampleOut
  | splits : List ShardIter → SampleOut
deriving DecidableEq, Repr

/-- The iterator-(re)build block at the top of `sample` (guarded by
`not return_iterator or return_iterator and num_shards <= 1 and not
self.batch_iterator`).  Evaluation order of the source: the
`self.data.map_batches` attribute access (AttributeError if the load
failed), then `self.learner_handles[0]` inside the kwargs dict. -/
def OfflineData.buildIterator (st : OfflineData) (num_samples : Nat) :
    Except Err OfflineData :=
  match st.data with
  | none => Except.error (Err.attributeError "data")
  | some _ =>
    match st.learner_handles with
    | none => Except.error (Err.typeError "learner_handles")
    | some hs =>
      match hs.get? 0 with
      | none => Except.error (Err.indexError "learner_handles")
      | some h0 =>
        let m := mapBatches
          { learner := LearnerArg.single h0
            locality_hints := none
            module_spec := none
            module_state := none }
          2 num_samples false
        Except.ok
          { st with
              batch_iterator := some
                { srcMapped := m
                  batch_size := num_samples
                  prefetch := 2
                  shuffle_buffer := num_samples * 10 } }

/-- Method `OfflineData.sample(num_samples, return_iterator, num_shards)`.
External effects are parameters: `learnerState h` is the snapshot returned
by the blocking `ray.get(h.get_state.remote(component=COMPONENT_RL_MODULE))`,
and `nextBatch` is the external iterator pull
`next(iter(it))["batch"][0]`.  The `Nat` in the result counts how many
blocking snapshot fetches this call performed. -/
def OfflineData.sample (st : OfflineData) (learnerState : String → Nat)
    (nextBatch : BatchIter → MultiAgentBatch)
    (num_samples : Nat) (return_iterator : Bool) (num_shards : Nat) :
    Except Err (SampleOut × OfflineData × Nat) :=
  (if !return_iterator
      || (return_iterator && decide (num_shards ≤ 1)
          && st.batch_iterator.isNone) then
    st.buildIterator num_samples
  else Except.ok st) >>= fun st1 =>
  if return_iterator then
    if 1 < num_shards then
      match st1.learner_handles with
      | none => Except.error (Err.typeError "learner_handles")
      | some hs =>
        match hs.get? 0 with
        | none => Except.error (Err.indexError "learner_handles")
        | some h0 =>
          let module_state := learnerState h0
          match st1.data with
          | none => Except.error (Err.attributeError "data")
          | some _ =>
            let m := mapBatches
              { learner := LearnerArg.many hs
                locality_hints := st1.locality_hints
                module_spec := st1.module_spec
                module_state := some module_state }
              num_shards num_samples true
            Except.ok (SampleOut.splits (streamingSplit m num_shards), st1, 1)
    else
      Except.ok (SampleOut.iter st1.batch_iterator, st1, 0)
  else
    match st1.batch_iterator with
    | none => Except.error (Err.typeError "batch_iterator")
    | some it => Except.ok (SampleOut.batch (nextBatch it), st1, 0)

/-! ## Helper lemmas -/

theorem ok_bind {α β : Type} (a : α) (f : α → Except Err β) :
    (Except.ok a >>= f) = f a := rfl

theorem error_bind {α β : Type} (e : Err) (f : α → Except Err β) :
    ((Except.error e : Except Err α) >>= f) = Except.error e := rfl

theorem bind_ok_iff {α β : Type} {x : Except Err α} {f : α → Except Err β} {r : β} :
    (x >>= f) = Except.ok r ↔ ∃ a, x = Except.ok a ∧ f a = Except.ok r := by
  cases x <;> simp [Bind.bind, Except.bind]

theorem getCell_ok_hasCol {b : Batch} {k : String} {i : Nat} {v : Val}
    (h : getCell b k i = Except.ok v) : hasCol b k = true := by
  unfold getCell at h
  unfold hasCol
  cases hc : getCol b k with
  | none => rw [hc] at h; exact absurd h (by simp)
  | some col => simp

theorem hasCol_false_getCol {b : Batch} {k : String}
    (h : hasCol b k = false) : getCol b k = none := by
  unfold hasCol at h
  cases hc : getCol b k with
  | none => rfl
  | some col => rw [hc] at h; simp at h

theorem getCol_length {b : Batch} {k : String} {col : List Val} {n : Nat}
    (hb : ∀ p ∈ b, p.2.length = n) (h : getCol b k = some col) :
    col.length = n := by
  unfold getCol at h
  cases hf : b.find? (fun p => p.1 == k) with
  | none => rw [hf] at h; exact absurd h (by simp)
  | some p =>
    rw [hf] at h
    simp at h
    subst h
    exact hb p (List.mem_of_find?_eq_some hf)

theorem getCell_ok_of_len {b : Batch} {k : String} {n i : Nat}
    (hb : ∀ p ∈ b, p.2.length = n) (hk : hasCol b k = true) (hi : i < n) :
    ∃ v, getCell b k i = Except.ok v := by
  unfold hasCol at hk
  cases hc : getCol b k with
  | none => rw [hc] at hk; simp at hk
  | some col =>
    have hlen : col.length = n := getCol_length hb hc
    cases hv : col.get? i with
    | none =>
      rw [List.get?_eq_none] at hv
      omega
    | some v =>
      exact ⟨v, by simp [getCell, hc, ← List.get?_eq_getElem?, hv]⟩

/-- Every episode `buildRow` returns has observation/info sequences of
length 2, action/reward sequences of length 1, and hence represents
exactly one environment step. -/
theorem buildRow_shape {b : Batch} {i : Nat} {o : Val} {e : SingleAgentEpisode}
    (h : buildRow b i o = Except.ok e) :
    e.observations.length = 2 ∧ e.infos.length = 2 ∧
      e.actions.length = 1 ∧ e.rewards.length = 1 ∧ e.env_steps = 1 := by
  unfold buildRow at h
  simp only [bind_ok_iff, Except.ok.injEq] at h
  obtain ⟨id_, _, nobs, _, info, _, act, _, rew, _, term, _, trunc, _, extras, _, he⟩ := h
  subst he
  simp [SingleAgentEpisode.env_steps]

/-- Evaluates `buildRow` as an explicit record once the value of every lookup is known. -/
theorem buildRow_eq_of_lookups {b : Batch} {i : Nat} {o : Val}
    {id_ nobs info act rew term trunc : Val} {extras : List (String × List Val)}
    (h1 : getCell b "eps_id" i = Except.ok id_)
    (h2 : getCell b "new_obs" i = Except.ok nobs)
    (h3 : lookupInfo b i = Except.ok info)
    (h4 : getCell b "actions" i = Except.ok act)
    (h5 : getCell b "rewards" i = Except.ok rew)
    (h6 : lookupTerminated b i = Except.ok term)
    (h7 : lookupTruncated b i = Except.ok trunc)
    (h8 : extraOutputs b i = Except.ok extras) :
    buildRow b i o = Except.ok
      { id_ := id_
        agent_id := none
        observations := [unpack_if_needed o, unpack_if_needed nobs]
        infos := [Val.dict0, info]
        actions := [act]
        rewards := [rew]
        terminated := term
        truncated := trunc
        extra_model_outputs := extras
        len_lookback_buffer := 0 } := by
  unfold buildRow
  rw [h1, ok_bind, h2, ok_bind, h3, ok_bind, h4, ok_bind, h5, ok_bind, h6, ok_bind,
    h7, ok_bind, h8, ok_bind]

/-- If `buildRow` succeeds, the four per-row required columns were present
(the observation column is required separately by the loop header). -/
theorem buildRow_ok_required {b : Batch} {i : Nat} {o : Val} {e : SingleAgentEpisode}
    (h : buildRow b i o = Except.ok e) :
    hasCol b "eps_id" = true ∧ hasCol b "new_obs" = true ∧
      hasCol b "actions" = true ∧ hasCol b "rewards" = true := by
  unfold buildRow at h
  simp only [bind_ok_iff, Except.ok.injEq] at h
  obtain ⟨id_, hid, nobs, hnobs, info, _, act, hact, rew, hrew, _⟩ := h
  exact ⟨getCell_ok_hasCol hid, getCell_ok_hasCol hnobs,
    getCell_ok_hasCol hact, getCell_ok_hasCol hrew⟩

/-- If `buildRow` succeeds on a batch with no truncated-flag column, the
truncated flag of the episode is the default `False`. -/
theorem buildRow_truncated_default {b : Batch} {i : Nat} {o : Val}
    {e : SingleAgentEpisode} (htr : hasCol b "truncateds" = false)
    (h : buildRow b i o = Except.ok e) : e.truncated = Val.bool false := by
  unfold buildRow at h
  simp only [bind_ok_iff, Except.ok.injEq] at h
  obtain ⟨id_, _, nobs, _, info, _, act, _, rew, _, term, _, trunc, htrunc, extras, _, he⟩ := h
  subst he
  unfold lookupTruncated at htrunc
  rw [htr] at htrunc
  simp at htrunc
  simp [htrunc]

theorem extraGo_ok {n i : Nat} (hi : i < n) :
    ∀ l : List (String × List Val), (∀ p ∈ l, p.2.length = n) →
      ∃ r, l.mapM
        (fun p : String × List Val =>
          match p.2.get? i with
          | some v => Except.ok (p.1, [v])
          | none => Except.error (Err.indexError p.1)) =
        (Except.ok r : Except Err (List (String × List Val)))
  | [], _ => ⟨[], rfl⟩
  | p :: rest, hl => by
    have hp : p.2.length = n := hl p (by simp)
    cases hv : p.2.get? i with
    | none =>
      rw [List.get?_eq_none] at hv
      omega
    | some v =>
      obtain ⟨r, hr⟩ := extraGo_ok hi rest (fun q hq => hl q (by simp [hq]))
      refine ⟨(p.1, [v]) :: r, ?_⟩
      rw [List.mapM_cons, hv]
      simp only [hr]
      rfl

theorem extraOutputs_ok {b : Batch} {n i : Nat}
    (hb : ∀ p ∈ b, p.2.length = n) (hi : i < n) :
    ∃ r, extraOutputs b i = Except.ok r := by
  unfold extraOutputs
  exact extraGo_ok hi _ (fun p hp => hb p (List.mem_of_mem_filter hp))

/-- With every reserved column present and all columns of length `n`,
`buildRow` succeeds on every row index below `n`. -/
theorem buildRow_ok_of_schema {b : Batch} {n : Nat}
    (hschema : ∀ s ∈ SCHEMA, hasCol b s = true)
    (hb : ∀ p ∈ b, p.2.length = n) :
    ∀ i, i < n → ∀ o, ∃ e, buildRow b i o = Except.ok e := by
  intro i hi o
  obtain ⟨v1, h1⟩ := getCell_ok_of_len hb (hschema "eps_id" (by simp [SCHEMA])) hi
  obtain ⟨v2, h2⟩ := getCell_ok_of_len hb (hschema "new_obs" (by simp [SCHEMA])) hi
  obtain ⟨v3, h3⟩ := getCell_ok_of_len hb (hschema "infos" (by simp [SCHEMA])) hi
  obtain ⟨v4, h4⟩ := getCell_ok_of_len hb (hschema "actions" (by simp [SCHEMA])) hi
  obtain ⟨v5, h5⟩ := getCell_ok_of_len hb (hschema "rewards" (by simp [SCHEMA])) hi
  obtain ⟨v6, h6⟩ := getCell_ok_of_len hb (hschema "terminateds" (by simp [SCHEMA])) hi
  obtain ⟨v7, h7⟩ := getCell_ok_of_len hb (hschema "truncateds" (by simp [SCHEMA])) hi
  obtain ⟨r, hr⟩ := extraOutputs_ok hb hi
  have h3i : lookupInfo b i = Except.ok v3 := by
    unfold lookupInfo
    rw [hschema "infos" (by simp [SCHEMA])]
    simpa using h3
  have h6t : lookupTerminated b i = Except.ok v6 := by
    unfold lookupTerminated
    rw [hschema "terminateds" (by simp [SCHEMA])]
    simpa using h6
  have h7t : lookupTruncated b i = Except.ok v7 := by
    unfold lookupTruncated
    rw [hschema "truncateds" (by simp [SCHEMA])]
    simpa using h7
  exact ⟨_, buildRow_eq_of_lookups h1 h2 h3i h4 h5 h6t h7t hr⟩

/-- Successful single-agent row mapping: one episode per remaining row, in
order, each produced by `buildRow` at its own row index. -/
theorem mapRows_ok_false {b : Batch} :
    ∀ (rest : List Val) (i : Nat) (es : List SingleAgentEpisode),
      mapRows false b rest i = Except.ok es →
      es.length = rest.length ∧
        ∀ k, k < rest.length →
          ∃ o e, rest.get? k = some o ∧ es.get? k = some e ∧
            buildRow b (i + k) o = Except.ok e
  | [], i, es, h => by
    simp only [mapRows, Except.ok.injEq] at h
    subst h
    exact ⟨rfl, by intro k hk; simp at hk⟩
  | o :: rest, i, es, h => by
    simp only [mapRows, Bool.false_eq_true, if_false, bind_ok_iff,
      Except.ok.injEq] at h
    obtain ⟨e, he, es2, hes2, hcons⟩ := h
    obtain ⟨hlen, hrow⟩ := mapRows_ok_false rest (i + 1) es2 hes2
    subst hcons
    refine ⟨by simp [hlen], ?_⟩
    intro k hk
    match k with
    | 0 => exact ⟨o, e, rfl, rfl, by simpa using he⟩
    | Nat.succ k2 =>
      obtain ⟨o2, e2, ho2, he2, hb2⟩ := hrow k2
        (by simp only [List.length_cons] at hk; omega)
      refine ⟨o2, e2, by simpa using ho2, by simpa using he2, ?_⟩
      have : i + 1 + k2 = i + (k2 + 1) := by omega
      rw [this] at hb2
      exact hb2

/-- Every episode in a successful single-agent mapping came from
`buildRow`. -/
theorem mapRows_mem_buildRow {b : Batch} {rest : List Val} {i : Nat}
    {es : List SingleAgentEpisode} (h : mapRows false b rest i = Except.ok es) :
    ∀ e ∈ es, ∃ j o, buildRow b j o = Except.ok e := by
  intro e he
  obtain ⟨k, hk⟩ := List.get?_of_mem he
  have hklt : k < es.length := by
    by_contra hge
    rw [List.get?_eq_none.mpr (by omega)] at hk
    exact absurd hk (by simp)
  obtain ⟨hlen, hrow⟩ := mapRows_ok_false rest i es h
  obtain ⟨o, e2, _, he2, hb2⟩ := hrow k (by omega)
  rw [hk] at he2
  exact ⟨i + k, o, by simp at he2; rw [he2]; exact hb2⟩

/-- The multi-agent path only ever succeeds on an empty row sequence
(every actual row raises `UnboundLocalError`). -/
theorem mapRows_true_ok {b : Batch} {rest : List Val} {i : Nat}
    {es : List SingleAgentEpisode} (h : mapRows true b rest i = Except.ok es) :
    rest = [] ∧ es = [] := by
  cases rest with
  | nil =>
    simp only [mapRows, Except.ok.injEq] at h
    exact ⟨rfl, h.symm⟩
  | cons o rest =>
    simp only [mapRows, if_true, bind_ok_iff] at h
    obtain ⟨a, _, hcontra⟩ := h
    exact absurd hcontra (by simp)

theorem mapRows_ok_exists {b : Batch} {n : Nat}
    (hbuild : ∀ j, j < n → ∀ o, ∃ e, buildRow b j o = Except.ok e) :
    ∀ (rest : List Val) (i : Nat), i + rest.length ≤ n →
      ∃ es, mapRows false b rest i = Except.ok es
  | [], i, _ => ⟨[], rfl⟩
  | o :: rest, i, hle => by
    obtain ⟨e, he⟩ := hbuild i (by simp at hle; omega) o
    obtain ⟨es, hes⟩ := mapRows_ok_exists hbuild rest (i + 1) (by simp at hle ⊢; omega)
    refine ⟨e :: es, ?_⟩
    simp only [mapRows, Bool.false_eq_true, if_false]
    rw [he, ok_bind, hes, ok_bind]

theorem map_to_episodes_ok_env_one {is_multi_agent : Bool} {b : Batch}
    {es : List SingleAgentEpisode}
    (h : map_to_episodes is_multi_agent b = Except.ok es) :
    ∀ e ∈ es, e.env_steps = 1 := by
  unfold map_to_episodes at h
  cases hc : getCol b "obs" with
  | none => rw [hc] at h; exact absurd h (by simp)
  | some obsCol =>
    rw [hc] at h
    cases is_multi_agent with
    | true =>
      rw [(mapRows_true_ok h).2]
      intro e he
      simp at he
    | false =>
      intro e he
      obtain ⟨j, o, hbr⟩ := mapRows_mem_buildRow h e he
      exact (buildRow_shape hbr).2.2.2.2

theorem map_to_episodes_ok_length {is_multi_agent : Bool} {b : Batch}
    {es : List SingleAgentEpisode} {obsCol : List Val}
    (h : map_to_episodes is_multi_agent b = Except.ok es)
    (hc : getCol b "obs" = some obsCol) : es.length = obsCol.length := by
  unfold map_to_episodes at h
  rw [hc] at h
  cases is_multi_agent with
  | true =>
    obtain ⟨h1, h2⟩ := mapRows_true_ok h
    rw [h1, h2]
    rfl
  | false => exact (mapRows_ok_false obsCol 0 es h).1

theorem filterFold_env_steps (pol : Policy) :
    ∀ (ks : List String) (acc : MultiAgentBatch),
      (ks.foldl
        (fun acc mid =>
          if should_module_be_updated pol mid acc then acc
          else { acc with
                   policy_batches :=
                     acc.policy_batches.filter (fun p => !(p.1 == mid)) })
        acc).env_steps = acc.env_steps
  | [], _ => rfl
  | k :: ks, acc => by
    simp only [List.foldl_cons]
    rw [filterFold_env_steps pol ks]
    split <;> rfl

/-- The module-inclusion filtering never changes the aggregate env-step
count. -/
theorem filterModules_env_steps (pol : Policy) (b : MultiAgentBatch) :
    (filterModules pol b).env_steps = b.env_steps :=
  filterFold_env_steps pol _ b

theorem sum_env_steps_eq_length :
    ∀ (es : List SingleAgentEpisode), (∀ e ∈ es, e.env_steps = 1) →
      (es.map SingleAgentEpisode.env_steps).sum = es.length
  | [], _ => rfl
  | e :: es, h => by
    simp only [List.map_cons, List.sum_cons, List.length_cons]
    rw [h e (by simp), sum_env_steps_eq_length es (fun x hx => h x (by simp [hx]))]
    omega

/-! ## Claim theorems -/

/-- C9.  The row-to-episode transformation is deterministic: two
invocations of `_map_to_episodes` on the same immutable batch with the
same multi-agent flag yield episode sequences equal in content and order.
(The embedding is a pure function precisely because the source mutates
nothing and draws no randomness in `_map_to_episodes`.) -/
theorem map_to_episodes_deterministic (is_multi_agent : Bool) (b : Batch)
    (es1 es2 : List SingleAgentEpisode)
    (h1 : map_to_episodes is_multi_agent b = Except.ok es1)
    (h2 : map_to_episodes is_multi_agent b = Except.ok es2) : es1 = es2 := by
  rw [h1] at h2
  injection h2

def batchC9 : Batch :=
  [("obs", [Val.num 0]), ("eps_id", [Val.num 1]), ("new_obs", [Val.num 2]),
   ("actions", [Val.num 3]), ("rewards", [Val.num 4]),
   ("dones", [Val.bool true])]

def episodeC9 : SingleAgentEpisode :=
  { id_ := Val.num 1
    agent_id := none
    observations := [Val.num 0, Val.num 2]
    infos := [Val.dict0, Val.dict0]
    actions := [Val.num 3]
    rewards := [Val.num 4]
    terminated := Val.bool true
    truncated := Val.bool false
    extra_model_outputs := []
    len_lookback_buffer := 0 }

theorem map_to_episodes_deterministic_witness : [episodeC9] = [episodeC9] :=
  map_to_episodes_deterministic false batchC9 [episodeC9] [episodeC9] rfl rfl

/-- C5.  On a raw batch with every reserved column present (all columns of
equal length) and the multi-agent flag unset, `_map_to_episodes` succeeds
with exactly one episode per row, in row order (the `k`-th episode is
built from the `k`-th row), and every episode has observation and info
sequences of length 2 and action and reward sequences of length 1. -/
theorem map_to_episodes_one_per_row_shape (b : Batch) (n : Nat)
    (obsCol : List Val) (hobs : getCol b "obs" = some obsCol)
    (hschema : ∀ s ∈ SCHEMA, hasCol b s = true)
    (hlen : ∀ p ∈ b, p.2.length = n) :
    ∃ es, map_to_episodes false b = Except.ok es ∧
      es.length = obsCol.length ∧
      (∀ k, k < obsCol.length →
        ∃ o e, obsCol.get? k = some o ∧ es.get? k = some e ∧
          buildRow b k o = Except.ok e) ∧
      ∀ e ∈ es, e.observations.length = 2 ∧ e.infos.length = 2 ∧
        e.actions.length = 1 ∧ e.rewards.length = 1 := by
  have hcollen : obsCol.length = n := getCol_length hlen hobs
  obtain ⟨es, hes⟩ := mapRows_ok_exists (buildRow_ok_of_schema hschema hlen)
    obsCol 0 (by omega)
  obtain ⟨hl, hrow⟩ := mapRows_ok_false obsCol 0 es hes
  refine ⟨es, ?_, hl, ?_, ?_⟩
  · unfold map_to_episodes
    rw [hobs]
    exact hes
  · intro k hk
    obtain ⟨o, e, ho, he, hbr⟩ := hrow k hk
    exact ⟨o, e, ho, he, by simpa using hbr⟩
  · intro e he
    obtain ⟨j, o, hbr⟩ := mapRows_mem_buildRow hes e he
    obtain ⟨a1, a2, a3, a4, _⟩ := buildRow_shape hbr
    exact ⟨a1, a2, a3, a4⟩

def batchC5 : Batch :=
  [("eps_id", [Val.num 1]), ("agent_id", [Val.num 0]),
   ("module_id", [Val.str "m"]), ("obs", [Val.num 10]),
   ("actions", [Val.num 2]), ("rewards", [Val.num 3]),
   ("infos", [Val.dict0]), ("new_obs", [Val.num 11]),
   ("terminateds", [Val.bool false]), ("truncateds", [Val.bool false]),
   ("t", [Val.num 0]), ("agent_index", [Val.num 0]),
   ("dones", [Val.bool false]), ("unroll_id", [Val.num 0])]

theorem map_to_episodes_one_per_row_shape_witness :
    ∃ es, map_to_episodes false batchC5 = Except.ok es ∧
      es.length = [Val.num 10].length ∧
      (∀ k, k < [Val.num 10].length →
        ∃ o e, [Val.num 10].get? k = some o ∧ es.get? k = some e ∧
          buildRow batchC5 k o = Except.ok e) ∧
      ∀ e ∈ es, e.observations.length = 2 ∧ e.infos.length = 2 ∧
        e.actions.length = 1 ∧ e.rewards.length = 1 :=
  map_to_episodes_one_per_row_shape batchC5 1 [Val.num 10]
    (by decide) (by decide) (by decide)

/-- C3 (counterexample).  A zero-row batch that is missing the episode-id,
next-observation, action and reward columns is mapped WITHOUT any
malformed-batch failure: `_map_to_episodes` returns an empty episode list
successfully, because the per-row column lookups never run. -/
theorem map_to_episodes_missing_columns_counterexample :
    hasCol [("obs", ([] : List Val))] "eps_id" = false ∧
    hasCol [("obs", ([] : List Val))] "actions" = false ∧
    map_to_episodes false [("obs", [])] = Except.ok [] :=
  ⟨rfl, rfl, rfl⟩

/-- C3 (amended).  If a required column is missing AND the batch either
lacks the observation column or has at least one row, then
`_map_to_episodes` raises an error (a column-lookup failure, or the
unimplemented-multi-agent failure when the flag is set) and hence
produces no episodes. -/
theorem map_to_episodes_missing_columns_error (is_multi_agent : Bool)
    (b : Batch)
    (hmiss : ¬(hasCol b "eps_id" = true ∧ hasCol b "obs" = true ∧
      hasCol b "new_obs" = true ∧ hasCol b "actions" = true ∧
      hasCol b "rewards" = true))
    (hrows : ∀ obsCol, getCol b "obs" = some obsCol → obsCol ≠ []) :
    ∃ err, map_to_episodes is_multi_agent b = Except.error err := by
  cases hc : getCol b "obs" with
  | none =>
    refine ⟨Err.keyError "obs", ?_⟩
    unfold map_to_episodes
    rw [hc]
  | some obsCol =>
    have hne := hrows obsCol hc
    cases obsCol with
    | nil => exact absurd rfl hne
    | cons o rest =>
      cases is_multi_agent with
      | true =>
        cases ha : agentIdLookup b 0 with
        | ok a =>
          refine ⟨Err.unboundLocalError "episode", ?_⟩
          unfold map_to_episodes
          rw [hc]
          simp only [mapRows, if_true]
          rw [ha, ok_bind]
        | error e =>
          refine ⟨e, ?_⟩
          unfold map_to_episodes
          rw [hc]
          simp only [mapRows, if_true]
          rw [ha, error_bind]
      | false =>
        cases hres : map_to_episodes false b with
        | error e => exact ⟨e, rfl⟩
        | ok es =>
          exfalso
          have hmr : mapRows false b (o :: rest) 0 = Except.ok es := by
            unfold map_to_episodes at hres
            rw [hc] at hres
            exact hres
          simp only [mapRows, Bool.false_eq_true, if_false, bind_ok_iff] at hmr
          obtain ⟨e, he, _⟩ := hmr
          obtain ⟨q1, q2, q3, q4⟩ := buildRow_ok_required he
          have hobs : hasCol b "obs" = true := by
            unfold hasCol
            rw [hc]
            rfl
          exact hmiss ⟨q1, hobs, q2, q3, q4⟩

theorem map_to_episodes_missing_columns_error_witness :
    ∃ err, map_to_episodes false [("obs", [Val.num 0])] = Except.error err :=
  map_to_episodes_missing_columns_error false [("obs", [Val.num 0])]
    (by decide)
    (by
      intro c hcc
      simp [getCol] at hcc
      subst hcc
      simp)

theorem lookupInfo_ok {b : Batch} {n i : Nat}
    (hb : ∀ p ∈ b, p.2.length = n) (hi : i < n) :
    ∃ v, lookupInfo b i = Except.ok v := by
  unfold lookupInfo
  cases hinf : hasCol b "infos" with
  | true =>
    obtain ⟨v, hv⟩ := getCell_ok_of_len hb hinf hi
    exact ⟨v, by simpa using hv⟩
  | false => exact ⟨Val.dict0, by simp⟩

theorem lookupTerminated_dones_error {b : Batch} {i : Nat}
    (hterm : hasCol b "terminateds" = false)
    (hdones : hasCol b "dones" = false) :
    lookupTerminated b i = Except.error (Err.keyError "dones") := by
  unfold lookupTerminated
  rw [hterm]
  simp only [Bool.false_eq_true, if_false]
  unfold getCell
  rw [hasCol_false_getCol hdones]

/-- C10.  On a single-agent batch carrying the five required columns but
neither a terminated-flag nor a legacy done-flag column,
`_map_to_episodes` fails on the first row with the `KeyError` from the
legacy "dones" lookup (rather than defaulting the terminated flag);
whereas — second scenario, discharged for any second batch — a missing
truncated-flag column is defaulted to `False` in the built episode. -/
theorem map_to_episodes_requires_done_flag (b : Batch) (n : Nat)
    (hlen : ∀ p ∈ b, p.2.length = n) (hn : 0 < n)
    (hobs : hasCol b "obs" = true) (heps : hasCol b "eps_id" = true)
    (hnobs : hasCol b "new_obs" = true) (hact : hasCol b "actions" = true)
    (hrew : hasCol b "rewards" = true)
    (hterm : hasCol b "terminateds" = false)
    (hdones : hasCol b "dones" = false)
    (b2 : Batch) (i2 : Nat) (o2 : Val) (e2 : SingleAgentEpisode)
    (htr2 : hasCol b2 "truncateds" = false)
    (hbr2 : buildRow b2 i2 o2 = Except.ok e2) :
    map_to_episodes false b = Except.error (Err.keyError "dones") ∧
      e2.truncated = Val.bool false := by
  refine ⟨?_, buildRow_truncated_default htr2 hbr2⟩
  have hobs2 := hobs
  unfold hasCol at hobs2
  cases hc : getCol b "obs" with
  | none => rw [hc] at hobs2; simp at hobs2
  | some obsCol =>
    have hclen : obsCol.length = n := getCol_length hlen hc
    cases obsCol with
    | nil => simp at hclen; omega
    | cons o rest =>
      obtain ⟨v1, h1⟩ := getCell_ok_of_len hlen heps hn
      obtain ⟨v2, h2⟩ := getCell_ok_of_len hlen hnobs hn
      obtain ⟨v3, h3⟩ := lookupInfo_ok hlen hn
      obtain ⟨v4, h4⟩ := getCell_ok_of_len hlen hact hn
      obtain ⟨v5, h5⟩ := getCell_ok_of_len hlen hrew hn
      have hbr : buildRow b 0 o = Except.error (Err.keyError "dones") := by
        unfold buildRow
        rw [h1, ok_bind, h2, ok_bind, h3, ok_bind, h4, ok_bind, h5, ok_bind,
          lookupTerminated_dones_error hterm hdones, error_bind]
      unfold map_to_episodes
      rw [hc]
      simp only [mapRows, Bool.false_eq_true, if_false]
      rw [hbr, error_bind]

def batchC10 : Batch :=
  [("obs", [Val.num 0]), ("eps_id", [Val.num 1]), ("new_obs", [Val.num 2]),
   ("actions", [Val.num 3]), ("rewards", [Val.num 4])]

def batchC10T : Batch :=
  [("obs", [Val.num 0]), ("eps_id", [Val.num 1]), ("new_obs", [Val.num 2]),
   ("actions", [Val.num 3]), ("rewards", [Val.num 4]),
   ("terminateds", [Val.bool true])]

def episodeC10 : SingleAgentEpisode :=
  { id_ := Val.num 1
    agent_id := none
    observations := [Val.num 0, Val.num 2]
    infos := [Val.dict0, Val.dict0]
    actions := [Val.num 3]
    rewards := [Val.num 4]
    terminated := Val.bool true
    truncated := Val.bool false
    extra_model_outputs := []
    len_lookback_buffer := 0 }

theorem map_to_episodes_requires_done_flag_witness :
    map_to_episodes false batchC10 = Except.error (Err.keyError "dones") ∧
      episodeC10.truncated = Val.bool false :=
  map_to_episodes_requires_done_flag batchC10 1 (by decide) (by decide)
    (by decide) (by decide) (by decide) (by decide) (by decide) (by decide)
    (by decide) batchC10T 0 (Val.num 0) episodeC10 (by decide) rfl

/-- C7.  Whenever the row-to-episode mapping succeeds, one invocation of
the transform unit returns exactly the single-element collection
`{"batch": [moduleKeyedBatch]}`, whose aggregate env-step count equals
the sum of the per-episode step counts, which in turn equals the number of
episodes — one per row of the raw batch. -/
theorem preLearnerCall_output_shape (is_multi_agent : Bool) (pol : Policy)
    (connector : List SingleAgentEpisode → List (String × Nat)) (b : Batch)
    (es : List SingleAgentEpisode) (obsCol : List Val)
    (h : map_to_episodes is_multi_agent b = Except.ok es)
    (hc : getCol b "obs" = some obsCol) :
    ∃ mb, preLearnerCall is_multi_agent pol connector b =
        Except.ok { batch := [mb] } ∧
      mb.env_steps = (es.map SingleAgentEpisode.env_steps).sum ∧
      (es.map SingleAgentEpisode.env_steps).sum = es.length ∧
      es.length = obsCol.length := by
  refine ⟨filterModules pol
    { policy_batches := connector es
      env_steps := (es.map SingleAgentEpisode.env_steps).sum }, ?_, ?_, ?_, ?_⟩
  · unfold preLearnerCall
    rw [h, ok_bind]
  · exact filterModules_env_steps pol _
  · exact sum_env_steps_eq_length es (map_to_episodes_ok_env_one h)
  · exact map_to_episodes_ok_length h hc

def batchC7 : Batch :=
  [("obs", [Val.num 5]), ("eps_id", [Val.num 9]), ("new_obs", [Val.num 6]),
   ("actions", [Val.num 7]), ("rewards", [Val.num 8]),
   ("dones", [Val.bool false])]

def episodeC7 : SingleAgentEpisode :=
  { id_ := Val.num 9
    agent_id := none
    observations := [Val.num 5, Val.num 6]
    infos := [Val.dict0, Val.dict0]
    actions := [Val.num 7]
    rewards := [Val.num 8]
    terminated := Val.bool false
    truncated := Val.bool false
    extra_model_outputs := []
    len_lookback_buffer := 0 }

theorem preLearnerCall_output_shape_witness :
    ∃ mb, preLearnerCall false Policy.nonePolicy (fun _ => [("A", 5)]) batchC7 =
        Except.ok { batch := [mb] } ∧
      mb.env_steps = ([episodeC7].map SingleAgentEpisode.env_steps).sum ∧
      ([episodeC7].map SingleAgentEpisode.env_steps).sum = [episodeC7].length ∧
      [episodeC7].length = [Val.num 5].length :=
  preLearnerCall_output_shape false Policy.nonePolicy (fun _ => [("A", 5)])
    batchC7 [episodeC7] [Val.num 5] rfl (by decide)

/-- C6 (counterexample).  With a predicate policy that inspects its batch
argument, the filtering loop of the source disagrees with the rule of the claim
"kept iff predicate(module id, FULL batch)": here the predicate is
"the batch has exactly one module".  On the full batch it is false for
both `A` and `B`, so the claim predicts an empty output; but the loop
deletes `A` first, after which the predicate — now applied to the
already-shrunk batch — keeps `B`. -/
theorem filterModules_full_batch_counterexample :
    ("B", 1) ∈ (filterModules
        (Policy.pred (fun _ mb => mb.policy_batches.length == 1))
        { policy_batches := [("A", 0), ("B", 1)], env_steps := 2 }).policy_batches ∧
    should_module_be_updated
        (Policy.pred (fun _ mb => mb.policy_batches.length == 1)) "B"
        { policy_batches := [("A", 0), ("B", 1)], env_steps := 2 } = false := by
  constructor
  · show ("B", 1) ∈ [("B", 1)]
    simp
  · rfl

theorem filterFold_insensitive (pol : Policy) (d : String → Bool)
    (hd : ∀ mid acc, should_module_be_updated pol mid acc = d mid) :
    ∀ (ks : List String) (acc : MultiAgentBatch),
      (ks.foldl
        (fun acc mid =>
          if should_module_be_updated pol mid acc then acc
          else { acc with
                   policy_batches :=
                     acc.policy_batches.filter (fun p => !(p.1 == mid)) })
        acc) =
      { acc with
          policy_batches :=
            acc.policy_batches.filter
              (fun p => !(decide (p.1 ∈ ks)) || d p.1) }
  | [], acc => by
    simp only [List.foldl_nil, List.not_mem_nil, decide_False, Bool.not_false,
      Bool.true_or, List.filter_true]
  | k :: ks, acc => by
    simp only [List.foldl_cons]
    rw [hd k acc]
    cases hdk : d k with
    | true =>
      simp only [if_true]
      rw [filterFold_insensitive pol d hd ks acc]
      congr 1
      apply List.filter_congr
      intro p _
      by_cases hpk : p.1 = k
      · simp [hpk, hdk]
      · simp [List.mem_cons, hpk]
    | false =>
      simp only [Bool.false_eq_true, if_false]
      rw [filterFold_insensitive pol d hd ks _]
      congr 1
      simp only [List.filter_filter]
      apply List.filter_congr
      intro p _
      by_cases hpk : p.1 = k
      · simp [hpk, hdk]
      · simp [List.mem_cons, hpk]

/-- C6 (amended).  For every policy whose inclusion decision does not
depend on the batch argument — which covers the empty/none policy, every
fixed-collection policy, and every batch-ignoring predicate — the
filtering loop of `__call__` computes exactly the rule of the claim: a module
is kept iff the policy decision on it is true (empty/none ⇒ always true;
fixed collection ⇒ membership; predicate ⇒ predicate verdict).  For
predicates that do inspect the batch, the decision instead sees the batch
with previously excluded modules already deleted. -/
theorem filterModules_insensitive_eq_claim (pol : Policy) (b : MultiAgentBatch)
    (hins : ∀ mid acc1 acc2,
      should_module_be_updated pol mid acc1 =
        should_module_be_updated pol mid acc2) :
    filterModules pol b = filterModulesClaim pol b := by
  unfold filterModules filterModulesClaim
  rw [filterFold_insensitive pol
    (fun mid => should_module_be_updated pol mid b) (fun mid acc => hins mid acc b)]
  congr 1
  apply List.filter_congr
  intro p hp
  have : p.1 ∈ b.policy_batches.map (fun q => q.1) := List.mem_map.mpr ⟨p, hp, rfl⟩
  simp [this]

theorem filterModules_insensitive_eq_claim_witness :
    filterModules (Policy.fixed ["A"])
        { policy_batches := [("A", 0), ("B", 1)], env_steps := 7 } =
      filterModulesClaim (Policy.fixed ["A"])
        { policy_batches := [("A", 0), ("B", 1)], env_steps := 7 } :=
  filterModules_insensitive_eq_claim (Policy.fixed ["A"])
    { policy_batches := [("A", 0), ("B", 1)], env_steps := 7 }
    (fun _ _ _ => rfl)

theorem get?_zip : ∀ (l1 : List α) (l2 : List β) (i : Nat),
    (l1.zip l2).get? i =
      (l1.get? i).bind (fun a => (l2.get? i).map (fun b2 => (a, b2)))
  | [], _, _ => by simp
  | _ :: _, [], _ => by simp
  | a :: t1, b2 :: t2, 0 => rfl
  | a :: t1, b2 :: t2, Nat.succ i => by
    simp only [List.zip_cons_cons, List.get?_cons_succ]
    exact get?_zip t1 t2 i

theorem zip_permuteIdx (l1 : List α) (l2 : List β)
    (hlen : l1.length = l2.length) :
    ∀ perm : List Nat,
      (permuteIdx perm l1).zip (permuteIdx perm l2) =
        permuteIdx perm (l1.zip l2)
  | [] => rfl
  | i :: perm => by
    unfold permuteIdx
    simp only [List.filterMap_cons]
    cases h1 : l1.get? i with
    | none =>
      have h2 : l2.get? i = none := by
        rw [List.get?_eq_none] at h1 ⊢
        omega
      have hz : (l1.zip l2).get? i = none := by
        rw [get?_zip, h1]
        rfl
      rw [h2, hz]
      exact zip_permuteIdx l1 l2 hlen perm
    | some a =>
      have hi : i < l2.length := by
        rw [← hlen]
        by_contra hge
        rw [List.get?_eq_none.mpr (by omega)] at h1
        exact absurd h1 (by simp)
      cases h2 : l2.get? i with
      | none =>
        rw [List.get?_eq_none] at h2
        omega
      | some b2 =>
        have hz : (l1.zip l2).get? i = some (a, b2) := by
          rw [get?_zip, h1, h2]
          rfl
        rw [hz]
        simp only [List.zip_cons_cons]
        exact congrArg (List.cons (a, b2)) (zip_permuteIdx l1 l2 hlen perm)

theorem filterMap_get?_range : ∀ (l : List α),
    (List.range l.length).filterMap l.get? = l
  | [] => rfl
  | a :: t => by
    rw [List.length_cons, List.range_succ_eq_map]
    simp only [List.filterMap_cons, List.get?_cons_zero]
    rw [List.filterMap_map]
    have hc : ((a :: t).get? ∘ Nat.succ) = t.get? := by
      funext i
      rfl
    rw [hc, filterMap_get?_range t]

/-- Applying a permutation of `[0, len)` to a list yields a permutation of
the list. -/
theorem permuteIdx_perm {l : List α} {perm : List Nat}
    (hperm : perm.Perm (List.range l.length)) :
    (permuteIdx perm l).Perm l := by
  have h := hperm.filterMap l.get?
  rw [filterMap_get?_range] at h
  exact h

theorem scanLearner_aux (node_id h : String) :
    ∀ (l : List (String × String)) (acc : Option String),
      (∀ p ∈ l, p.1 = node_id → p.2 = h) →
      ((∃ p ∈ l, p.1 = node_id) ∨ acc = some h) →
      l.foldl (fun acc p => if p.1 = node_id then some p.2 else acc) acc = some h
  | [], acc, _, hex => by
    simp only [List.foldl_nil]
    rcases hex with ⟨p, hp, _⟩ | hacc
    · simp at hp
    · exact hacc
  | p :: l, acc, hall, hex => by
    simp only [List.foldl_cons]
    by_cases hpn : p.1 = node_id
    · have hph : p.2 = h := hall p (by simp) hpn
      apply scanLearner_aux node_id h l _ (fun q hq => hall q (by simp [hq]))
      right
      rw [if_pos hpn, hph]
    · apply scanLearner_aux node_id h l _ (fun q hq => hall q (by simp [hq]))
      rw [if_neg hpn]
      rcases hex with ⟨q, hq, hq2⟩ | hacc
      · rcases List.mem_cons.mp hq with rfl | hq3
        · exact absurd hq2 hpn
        · exact Or.inl ⟨q, hq3, hq2⟩
      · exact Or.inr hacc

/-- C2.  With parallel handle/hint lists in which exactly one hint (at
index `j`) equals the local node identity, the remote affinity selection
binds exactly the handle paired with that hint, for EVERY permutation of
the indices — the scan always assigns `_learner`, so the random fallback
is never consulted and no error is raised. -/
theorem selectLearner_unique_hint (node_id : String)
    (locality_hints learner : List String) (perm : List Nat) (j : Nat)
    (h : String) (hlen : learner.length = locality_hints.length)
    (hperm : perm.Perm (List.range locality_hints.length))
    (hj : locality_hints.get? j = some node_id)
    (hh : learner.get? j = some h)
    (huniq : ∀ k, k ≠ j → locality_hints.get? k ≠ some node_id) :
    selectLearner node_id locality_hints learner perm = Except.ok h := by
  show (match scanLearner node_id
      ((permuteIdx perm locality_hints).zip (permuteIdx perm learner)) with
    | some l => Except.ok l
    | none => Except.error (Err.attributeError "_learner")) = Except.ok h
  rw [zip_permuteIdx locality_hints learner hlen.symm perm]
  have hplen : (locality_hints.zip learner).length = locality_hints.length := by
    rw [List.length_zip, hlen, min_self]
  have hpp : (permuteIdx perm (locality_hints.zip learner)).Perm
      (locality_hints.zip learner) := permuteIdx_perm (by rw [hplen]; exact hperm)
  have hmem : (node_id, h) ∈ locality_hints.zip learner :=
    List.get?_mem
      (show (locality_hints.zip learner).get? j = some (node_id, h) by
        rw [get?_zip, hj, hh]
        rfl)
  have hall : ∀ p ∈ locality_hints.zip learner, p.1 = node_id → p.2 = h := by
    intro p hp hp1
    obtain ⟨k, hk⟩ := List.get?_of_mem hp
    rw [get?_zip] at hk
    cases ha : locality_hints.get? k with
    | none => rw [ha] at hk; exact absurd hk (by simp)
    | some a =>
      cases hb : learner.get? k with
      | none => rw [ha, hb] at hk; exact absurd hk (by simp)
      | some b2 =>
        rw [ha, hb] at hk
        have hk2 : (a, b2) = p := by simpa using hk
        have han : a = node_id := by rw [← hk2] at hp1; exact hp1
        have hkj : k = j := by
          by_contra hne
          exact huniq k hne (by rw [ha, han])
        have hbh : b2 = h := by
          rw [hkj] at hb
          rw [hb] at hh
          exact Option.some.inj hh
        rw [← hk2]
        exact hbh
  have hmem2 : (node_id, h) ∈ permuteIdx perm (locality_hints.zip learner) :=
    hpp.mem_iff.mpr hmem
  have hall2 : ∀ p ∈ permuteIdx perm (locality_hints.zip learner),
      p.1 = node_id → p.2 = h :=
    fun p hp => hall p (hpp.mem_iff.mp hp)
  have hscan : scanLearner node_id
      (permuteIdx perm (locality_hints.zip learner)) = some h := by
    unfold scanLearner
    exact scanLearner_aux node_id h _ none hall2
      (Or.inl ⟨(node_id, h), hmem2, rfl⟩)
  rw [hscan]

theorem selectLearner_unique_hint_witness :
    selectLearner "nodeA" ["nodeB", "nodeA"] ["L0", "L1"] [1, 0] =
      Except.ok "L1" :=
  selectLearner_unique_hint "nodeA" ["nodeB", "nodeA"] ["L0", "L1"] [1, 0] 1
    "L1" rfl (by decide) rfl rfl
    (by
      intro k hk
      match k with
      | 0 => decide
      | 1 => exact absurd rfl hk
      | Nat.succ (Nat.succ k2) => simp [List.get?])

/-- C1 (code evaluation at the failing input).  With a single consumer
whose hint does not match the local node, the affinity selection does NOT
fall back to a uniformly random handle: the `_learner` attribute is never
assigned, so the `if not self._learner` check raises `AttributeError`
before the `random.randint` fallback line can run. -/
theorem selectLearner_no_match_attribute_error :
    selectLearner "node0" ["node1"] ["L0"] [0] =
      Except.error (Err.attributeError "_learner") := rfl

/-- A façade whose dataset load failed at construction (exception
swallowed, `data` attribute never set), with learner handles assigned
externally as in normal operation. -/
def facadeFailedLoad : OfflineData :=
  { OfflineData.init (Except.error "invalid path") with
      learner_handles := some ["L0"] }

/-- C4 (code evaluation at the failing input).  After a failed dataset
load, `sample` does NOT fail with the explicit "dataset unavailable"
condition in any of the three modes: every call crashes with the
unrelated `AttributeError` from the unset `data` attribute. -/
theorem sample_after_failed_load_not_dataset_unavailable :
    (OfflineData.sample facadeFailedLoad (fun _ => 0)
        (fun _ => { policy_batches := [], env_steps := 0 }) 5 false 1 =
      Except.error (Err.attributeError "data")) ∧
    (OfflineData.sample facadeFailedLoad (fun _ => 0)
        (fun _ => { policy_batches := [], env_steps := 0 }) 5 true 1 =
      Except.error (Err.attributeError "data")) ∧
    (OfflineData.sample facadeFailedLoad (fun _ => 0)
        (fun _ => { policy_batches := [], env_steps := 0 }) 5 true 3 =
      Except.error (Err.attributeError "data")) ∧
    Err.attributeError "data" ≠ Err.datasetUnavailable :=
  ⟨rfl, rfl, rfl, by decide⟩

/-- C8.  In multi-shard mode (`return_iterator = true`, `num_shards > 1`)
on a façade with a loaded dataset, `sample` performs exactly ONE blocking
model-snapshot fetch (from the first learner handle — the designated
primary consumer), regardless of `num_shards`, and every one of the
`num_shards` transform units recorded in the mapped dataset is
constructed from the same kwargs: the full consumer list, the
locality-hint set, and that single fetched snapshot. -/
theorem sample_multi_shard_single_fetch (st : OfflineData) (ds : String)
    (hs : List String) (h0 : String) (learnerState : String → Nat)
    (nextBatch : BatchIter → MultiAgentBatch) (num_samples num_shards : Nat)
    (hds : st.data = some ds) (hhs : st.learner_handles = some hs)
    (hh0 : hs.get? 0 = some h0) (hn : 1 < num_shards) :
    ∃ its, OfflineData.sample st learnerState nextBatch num_samples true
        num_shards = Except.ok (SampleOut.splits its, st, 1) ∧
      its.length = num_shards ∧
      ∀ s ∈ its, s.srcMapped.units.length = num_shards ∧
        ∀ u ∈ s.srcMapped.units,
          u = { learner := LearnerArg.many hs
                locality_hints := st.locality_hints
                module_spec := st.module_spec
                module_state := some (learnerState h0) } := by
  have hns : decide (num_shards ≤ 1) = false :=
    decide_eq_false_iff_not.mpr (by omega)
  refine ⟨streamingSplit
    (mapBatches
      { learner := LearnerArg.many hs
        locality_hints := st.locality_hints
        module_spec := st.module_spec
        module_state := some (learnerState h0) }
      num_shards num_samples true) num_shards, ?_, ?_, ?_⟩
  · unfold OfflineData.sample
    rw [hns]
    simp only [Bool.not_true, Bool.and_false, Bool.false_and, Bool.false_or]
    rw [if_neg (by simp)]
    rw [ok_bind]
    simp only [if_true]
    rw [if_pos hn, hhs]
    dsimp only
    rw [hh0]
    dsimp only
    rw [hds]
  · simp [streamingSplit]
  · intro s hs2
    simp only [streamingSplit, List.mem_map, List.mem_range] at hs2
    obtain ⟨i, _, hsi⟩ := hs2
    subst hsi
    constructor
    · simp [mapBatches]
    · intro u hu
      simp only [mapBatches] at hu
      exact List.eq_of_mem_replicate hu

theorem sample_multi_shard_single_fetch_witness :
    ∃ its, OfflineData.sample
        { data := some "ds", batch_iterator := none,
          locality_hints := some ["n0", "n1", "n2", "n3"],
          learner_handles := some ["L0", "L1", "L2", "L3"],
          module_spec := some "ms" }
        (fun _ => 42) (fun _ => { policy_batches := [], env_steps := 0 })
        7 true 4 = Except.ok (SampleOut.splits its,
          { data := some "ds", batch_iterator := none,
            locality_hints := some ["n0", "n1", "n2", "n3"],
            learner_handles := some ["L0", "L1", "L2", "L3"],
            module_spec := some "ms" }, 1) ∧
      its.length = 4 ∧
      ∀ s ∈ its, s.srcMapped.units.length = 4 ∧
        ∀ u ∈ s.srcMapped.units,
          u = { learner := LearnerArg.many ["L0", "L1", "L2", "L3"]
                locality_hints := some ["n0", "n1", "n2", "n3"]
                module_spec := some "ms"
                module_state := some 42 } :=
  sample_multi_shard_single_fetch
    { data := some "ds", batch_iterator := none,
      locality_hints := some ["n0", "n1", "n2", "n3"],
      learner_handles := some ["L0", "L1", "L2", "L3"],
      module_spec := some "ms" }
    "ds" ["L0", "L1", "L2", "L3"] "L0" (fun _ => 42)
    (fun _ => { policy_batches := [], env_steps := 0 }) 7 4
    rfl rfl rfl (by omega)

end RayOffline
